import Mathlib

/-!
Verification development for the bakerd block-ingestion and account
synchronization daemon. The Rust sources are shallowly embedded: machine
integers (`i32`, `i64`) become `Int`, `rust_decimal::Decimal` amounts become
`Rat` (the embedded code only copies, adds and subtracts exact decimal
values), `f64` fields become `Rat` (the embedded code never computes with
them, it only copies them), strings stay `String`, and fallible async calls
become `Except` values. Database-backed repositories are modelled as records
of functions over an explicit `Storage` state, mirroring the Rust trait
objects (`DynAccountRepository`, ...); the SQLite implementations become
pure state transformers. Jobs thread the state explicitly, so writes issued
before a failing call persist, exactly as in the real database.
-/

deriving instance DecidableEq for Except

namespace Bakerd

/-- Reward kinds, from `model.rs` (`RewardKind`): a reward row is either a
baker reward or the transaction fees. -/
inductive RewardKind
  | Baker
  | TransactionFee
deriving DecidableEq, Repr

/-- Client errors, from `client/mod.rs` (`Error`): HTTP, gRPC or JSON
decoding failures. The payloads are never inspected by the jobs, so they are
dropped. -/
inductive ClientError
  | http
  | grpc
  | json
deriving DecidableEq, Repr

/-- Repository errors, from `repository/mod.rs` (`RepositoryError`): a
distinct `NotFound` outcome and an opaque `Faillable` failure (payload
dropped, it is never inspected). -/
inductive RepositoryError
  | NotFound
  | Faillable
deriving DecidableEq, Repr

/-- Application errors, from `controller.rs` (`AppError`): either a wrapped
repository error or a wrapped client error, produced by the `From`
conversions that the `?` operator applies inside the jobs. -/
inductive AppError
  | repository (e : RepositoryError)
  | client (e : ClientError)
deriving DecidableEq, Repr

/-- A consensus block as reported by the node, from `client/node.rs`
(`Block`). Named `NodeBlock` to avoid a clash with the storage-model
`Block`. -/
structure NodeBlock where
  hash : String
  height : Int
deriving DecidableEq, Repr

/-- Full block information from the node, from `client/node.rs`
(`BlockInfo`). `block_slot_time` is a UTC timestamp of which the code only
uses `timestamp_millis()`, embedded here as `block_slot_time_ms`. -/
structure BlockInfo where
  block_hash : String
  block_height : Int
  finalized : Bool
  block_baker : Option Int
  block_slot_time_ms : Int
deriving DecidableEq, Repr

/-- A special event of a block summary, from `client/node.rs` (`Event`). -/
structure Event where
  tag : String
  account : Option String
  baker_reward : Option Rat
  transaction_fees : Option Rat
  finalization_reward : Option Rat
deriving DecidableEq, Repr

/-- A block summary, from `client/node.rs` (`BlockSummary`). -/
structure BlockSummary where
  special_events : List Event
deriving DecidableEq, Repr

/-- Staking data of an account, from `client/node.rs` (`AccountBaker`). -/
structure AccountBaker where
  staked_amount : Rat
  restake_earnings : Bool
  baker_id : Int
deriving DecidableEq, Repr

/-- Account information from the node, from `client/node.rs`
(`AccountInfo`). -/
structure AccountInfo where
  account_nonce : Int
  account_amount : Rat
  account_index : Int
  account_address : String
  account_baker : Option AccountBaker
deriving DecidableEq, Repr

/-- Baker information from the node, from `client/node.rs` (`Baker`). -/
structure Baker where
  baker_account : String
  baker_id : Int
  baker_lottery_power : Rat
deriving DecidableEq, Repr

/-- Node identity information, from `client/node.rs` (`NodeInfo`). -/
structure NodeInfo where
  node_id : Option String
  baker_id : Option Int
  is_baker_committee : Bool
  is_finalizer_committee : Bool
  peer_type : String
deriving DecidableEq, Repr

/-- Node peer statistics, from `client/node.rs` (`NodeStats`). -/
structure NodeStats where
  avg_latency : Rat
  avg_bps_in : Int
  avg_bps_out : Int
  peer_count : Nat
deriving DecidableEq, Repr

/-- A row of the `accounts` table, from `schema.rs` and
`repository/account.rs` (`models::Account`). -/
structure AccountRow where
  id : Int
  address : String
  lottery_power : Rat
  balance : Rat
  stake : Rat
  pending_update : Bool
deriving DecidableEq, Repr

/-- A row of the `account_rewards` table, from `schema.rs` and
`repository/account.rs` (`models::Reward`). -/
structure RewardRow where
  id : Int
  account_id : Int
  block_hash : String
  epoch_ms : Int
  kind : RewardKind
  amount : Rat
deriving DecidableEq, Repr

/-- A row of the `blocks` table, from `schema.rs` and
`repository/block.rs` (`models::Block`). -/
structure BlockRow where
  id : Int
  height : Int
  hash : String
  slot_time_ms : Int
  baker : Int
deriving DecidableEq, Repr

/-- The host-resource JSON blob of a status report, from
`repository/status.rs` (`ResourceStatusJson`). The `f32` CPU load is
embedded as `Rat`; the code only stores it. -/
structure ResourceStatusJson where
  avg_cpu_load : Option Rat
  mem_free : Option Int
  mem_total : Option Int
  uptime_secs : Option Int
deriving DecidableEq, Repr

/-- The node JSON blob of a status report, from `repository/status.rs`
(`NodeStatusJson`). -/
structure NodeStatusJson where
  node_id : Option String
  baker_id : Option Int
  is_baker_committee : Bool
  is_finalizer_committee : Bool
  uptime_ms : Int
  peer_type : String
  peer_average_latency : Rat
  peer_count : Nat
deriving DecidableEq, Repr

/-- A row of the `statuses` table, from `schema.rs` and
`repository/status.rs` (`models::Status`). -/
structure StatusRow where
  id : Int
  resources : ResourceStatusJson
  node : Option NodeStatusJson
  timestamp_ms : Int
deriving DecidableEq, Repr

/-- The SQLite database state relevant to the jobs: the four tables the
embedded code touches, plus the auto-increment counters for their integer
primary keys. -/
structure Storage where
  accounts : List AccountRow
  account_rewards : List RewardRow
  blocks : List BlockRow
  statuses : List StatusRow
  next_account_id : Int
  next_reward_id : Int
  next_block_id : Int
  next_status_id : Int
deriving DecidableEq, Repr

/-- The application-level account entity, from `model.rs` (`Account`). -/
structure Account where
  id : Int
  address : String
  balance : Rat
  stake : Rat
  lottery_power : Rat
deriving DecidableEq, Repr

/-- The application-level block entity, from `model.rs` (`Block`). -/
structure Block where
  id : Int
  height : Int
  hash : String
  slot_time_ms : Int
  baker : Int
deriving DecidableEq, Repr

/-- An account insert/upsert record, from `repository/account.rs`
(`NewAccount`). -/
structure NewAccount where
  address : String
  balance : Rat
  stake : Rat
  lottery_power : Rat
  pending_update : Bool
deriving DecidableEq, Repr

/-- A reward insert record, from `repository/account.rs` (`NewReward`). -/
structure NewReward where
  account_id : Int
  block_hash : String
  amount : Rat
  epoch_ms : Int
  kind : RewardKind
deriving DecidableEq, Repr

/-- A block insert record, from `repository/block.rs` (`models::NewBlock`). -/
structure NewBlock where
  height : Int
  hash : String
  slot_time_ms : Int
  baker : Int
deriving DecidableEq, Repr

/-- A status insert record, from `repository/status.rs`
(`models::NewStatus`). -/
structure NewStatus where
  timestamp_ms : Int
  resources : ResourceStatusJson
  node : Option NodeStatusJson
deriving DecidableEq, Repr

/-- An account query filter, from `repository/account.rs`
(`AccountFilter`). -/
structure AccountFilter where
  addresses : Option (List String)
deriving DecidableEq, Repr

/-- The node client interface, from `client/node.rs` (`NodeClient`): each
method is a fallible query. The client is stateless per call, so each
method is a pure function of its arguments. -/
structure NodeClient where
  get_last_block : Except ClientError NodeBlock
  get_block_at_height : Int → Except ClientError (Option String)
  get_block_info : String → Except ClientError BlockInfo
  get_block_summary : String → Except ClientError BlockSummary
  get_account_info : String → String → Except ClientError AccountInfo
  get_baker : String → String → Except ClientError (Option Baker)
  get_node_info : Except ClientError NodeInfo
  get_node_uptime : Except ClientError Int
  get_node_stats : Except ClientError NodeStats

/-- The result of one repository call: a typed outcome, and the storage
state after the call (writes issued before a failure persist). -/
abbrev RepoResult (α : Type) := Except RepositoryError α × Storage

/-- The account repository interface, from `repository/account.rs`
(`AccountRepository`); the operations the jobs under scrutiny use. -/
structure AccountRepository where
  get_accounts : AccountFilter → Storage → RepoResult (List Account)
  set_account : NewAccount → Storage → RepoResult Account
  set_reward : NewReward → Storage → RepoResult Unit
  set_for_update : List String → Bool → Storage → RepoResult Unit
  get_for_update : Storage → RepoResult (List Account)

/-- The block repository interface, from `repository/block.rs`
(`BlockRepository`); `get_all` is not used by the embedded jobs. -/
structure BlockRepository where
  get_last_block : Storage → RepoResult Block
  store : NewBlock → Storage → RepoResult Unit
  garbage_collect : Int → Storage → RepoResult Unit

/-- The status repository interface, from `repository/status.rs`
(`StatusRepository`); `get_last_report` is not used by the embedded jobs. -/
structure StatusRepository where
  report : NewStatus → Storage → RepoResult Unit
  garbage_collect : Int → Storage → RepoResult Unit

/-- Conversion of an `accounts` row into the model entity, from
`repository/account.rs` (`impl From<Account> for model::Account`). -/
def AccountRow.toAccount (r : AccountRow) : Account :=
  { id := r.id, address := r.address, balance := r.balance, stake := r.stake,
    lottery_power := r.lottery_power }

/-- Conversion of a `blocks` row into the model entity, from
`repository/block.rs` (`impl From<models::Block> for Block`). -/
def BlockRow.toBlock (r : BlockRow) : Block :=
  { id := r.id, height := r.height, hash := r.hash,
    slot_time_ms := r.slot_time_ms, baker := r.baker }

/-- Whether an `accounts` row passes an `AccountFilter`, from
`SqliteAccountRepository::get_accounts`: with no address list every row
passes, otherwise the row's address must be in the list. -/
def matchesFilter (filter : AccountFilter) (r : AccountRow) : Bool :=
  match filter.addresses with
  | none => true
  | some addrs => addrs.contains r.address

/-- The `SELECT` of `SqliteAccountRepository::get_accounts`. -/
def sqliteGetAccounts (filter : AccountFilter) (st : Storage) : List Account :=
  (st.accounts.filter (matchesFilter filter)).map AccountRow.toAccount

/-- The conflict target of `SqliteAccountRepository::set_reward`: the
`(account_id, block_hash, kind)` triple of an existing row equals that of
the insert record. -/
def rewardConflict (nr : NewReward) (r : RewardRow) : Bool :=
  r.account_id == nr.account_id && r.block_hash == nr.block_hash && r.kind == nr.kind

/-- The insert of `SqliteAccountRepository::set_reward`: `INSERT ... ON
CONFLICT (account_id, block_hash, kind) DO NOTHING`. Modelled from the spec:
the unique index on `(account_id, block_hash, kind)` that makes the conflict
clause fire lives in an SQL migration that is not part of the sources; the
spec states rewards are "enforced by a uniqueness constraint with do nothing
on conflict semantics". -/
def setRewardPure (nr : NewReward) (st : Storage) : Storage :=
  if st.account_rewards.any (rewardConflict nr) then st
  else
    { st with
      account_rewards := st.account_rewards ++
        [{ id := st.next_reward_id, account_id := nr.account_id,
           block_hash := nr.block_hash, epoch_ms := nr.epoch_ms,
           kind := nr.kind, amount := nr.amount }]
      next_reward_id := st.next_reward_id + 1 }

/-- The `UPDATE` of `SqliteAccountRepository::set_for_update`: set
`pending_update` on every `accounts` row whose address is in the list. Rows
for addresses that are not stored do not exist and are unaffected. -/
def setForUpdatePure (addrs : List String) (pending : Bool) (st : Storage) : Storage :=
  { st with
    accounts := st.accounts.map fun r =>
      if addrs.contains r.address then { r with pending_update := pending } else r }

/-- The upsert of `SqliteAccountRepository::set_account`: `INSERT ... ON
CONFLICT (address) DO UPDATE SET`, keyed by the unique address. -/
def setAccountPure (na : NewAccount) (st : Storage) : Storage :=
  if st.accounts.any (fun r => r.address == na.address) then
    { st with
      accounts := st.accounts.map (fun r =>
        if r.address == na.address then
          { r with
            balance := na.balance
            stake := na.stake
            lottery_power := na.lottery_power
            pending_update := na.pending_update }
        else r) }
  else
    { st with
      accounts := st.accounts ++
        [{ id := st.next_account_id, address := na.address,
           lottery_power := na.lottery_power, balance := na.balance,
           stake := na.stake, pending_update := na.pending_update }]
      next_account_id := st.next_account_id + 1 }

/-- The full `SqliteAccountRepository::set_account`: upsert, then read the
row back by address (`first` fails with `NotFound` only if the row is
somehow absent). -/
def sqliteSetAccount (na : NewAccount) (st : Storage) : RepoResult Account :=
  let st1 := setAccountPure na st
  match st1.accounts.find? (fun r => r.address == na.address) with
  | some r => (.ok r.toAccount, st1)
  | none => (.error .NotFound, st1)

/-- The highest-height row of the `blocks` table, the `ORDER BY height DESC
... first` of `SqliteBlockRepository::get_last_block`. -/
def maxHeightRow : List BlockRow → Option BlockRow
  | [] => none
  | r :: rs =>
    match maxHeightRow rs with
    | none => some r
    | some m => if m.height > r.height then some m else some r

/-- The `SqliteBlockRepository::get_last_block` query: the highest stored
block, or the distinct `NotFound` outcome when the table is empty (the
`Error::NotFound` mapping at `repository/block.rs`). -/
def sqliteGetLastBlock (st : Storage) : RepoResult Block :=
  match maxHeightRow st.blocks with
  | some r => (.ok r.toBlock, st)
  | none => (.error .NotFound, st)

/-- The insert of `SqliteBlockRepository::store`. -/
def storeBlockPure (nb : NewBlock) (st : Storage) : Storage :=
  { st with
    blocks := st.blocks ++
      [{ id := st.next_block_id, height := nb.height, hash := nb.hash,
         slot_time_ms := nb.slot_time_ms, baker := nb.baker }]
    next_block_id := st.next_block_id + 1 }

/-- The delete of `SqliteBlockRepository::garbage_collect`: remove every
block with height strictly below the boundary. -/
def garbageCollectPure (below_height : Int) (st : Storage) : Storage :=
  { st with blocks := st.blocks.filter fun r => decide (below_height ≤ r.height) }

/-- The insert of `SqliteStatusRepository::report`. -/
def reportPure (ns : NewStatus) (st : Storage) : Storage :=
  { st with
    statuses := st.statuses ++
      [{ id := st.next_status_id, resources := ns.resources, node := ns.node,
         timestamp_ms := ns.timestamp_ms }]
    next_status_id := st.next_status_id + 1 }

/-- Insertion into a list of status rows kept sorted by descending
timestamp, used to embed `ORDER BY timestamp_ms DESC`. -/
def insertDescByTs (r : StatusRow) : List StatusRow → List StatusRow
  | [] => [r]
  | x :: xs => if r.timestamp_ms > x.timestamp_ms then r :: x :: xs else x :: insertDescByTs r xs

/-- Status rows sorted by descending timestamp. -/
def sortDescByTs (rows : List StatusRow) : List StatusRow :=
  rows.foldr insertDescByTs []

/-- The ids kept by `SqliteStatusRepository::garbage_collect`: the `SELECT
id ORDER BY timestamp_ms DESC LIMIT n` subquery. Every call in the embedded
code passes a nonnegative `n`. -/
def statusKeepIds (rows : List StatusRow) (n : Int) : List Int :=
  ((sortDescByTs rows).take n.toNat).map (·.id)

/-- The delete of `SqliteStatusRepository::garbage_collect`: keep only the
rows whose id is among the `n` most recent ones. -/
def gcStatusesPure (n : Int) (st : Storage) : Storage :=
  { st with statuses := st.statuses.filter fun r => (statusKeepIds st.statuses n).contains r.id }

/-- The SQLite-backed account repository, from `repository/account.rs`
(`SqliteAccountRepository`). Its pure operations never fail in this model
(connection failures are modelled by other `AccountRepository` values, as
the repository's own tests do with an unmigrated pool). -/
def sqliteAccountRepository : AccountRepository :=
  { get_accounts := fun filter st => (.ok (sqliteGetAccounts filter st), st)
    set_account := sqliteSetAccount
    set_reward := fun nr st => (.ok (), setRewardPure nr st)
    set_for_update := fun addrs pending st => (.ok (), setForUpdatePure addrs pending st)
    get_for_update := fun st =>
      (.ok ((st.accounts.filter (·.pending_update)).map AccountRow.toAccount), st) }

/-- The SQLite-backed block repository, from `repository/block.rs`
(`SqliteBlockRepository`). -/
def sqliteBlockRepository : BlockRepository :=
  { get_last_block := sqliteGetLastBlock
    store := fun nb st => (.ok (), storeBlockPure nb st)
    garbage_collect := fun below st => (.ok (), garbageCollectPure below st) }

/-- The SQLite-backed status repository, from `repository/status.rs`
(`SqliteStatusRepository`). -/
def sqliteStatusRepository : StatusRepository :=
  { report := fun ns st => (.ok (), reportPure ns st)
    garbage_collect := fun n st => (.ok (), gcStatusesPure n st) }

/-- The result of one job step: the typed outcome (errors already lifted to
`AppError` by the `From` conversions the `?` operator applies), and the
storage state after the step. -/
abbrev JobStep (α : Type) := Except AppError α × Storage

/-- The reward event tag, `EVENT_TAG_REWARD` in `job/block.rs`. -/
def EVENT_TAG_REWARD : String := "PaydayAccountReward"

/-- The garbage-collection offset, `GC_OFFSET` in `job/block.rs`. -/
def GC_OFFSET : Int := 500000

/-- Insertion into the association list embedding the `HashMap` of
`BlockFetcher::do_rewards`: `HashMap::insert` replaces the value of an
existing key. -/
def insertReplace (m : List (String × Rat × Rat)) (k : String) (v : Rat × Rat) :
    List (String × Rat × Rat) :=
  if m.any (fun p => p.1 == k) then
    m.map (fun p => if p.1 == k then (k, v) else p)
  else m ++ [(k, v)]

/-- Lookup in the association list embedding the `HashMap` of
`BlockFetcher::do_rewards`. -/
def lookupReward (m : List (String × Rat × Rat)) (k : String) : Option (Rat × Rat) :=
  (m.find? (fun p => p.1 == k)).map (·.2)

/-- The event scan of `BlockFetcher::do_rewards`: skip events whose tag is
not `PaydayAccountReward` or that carry no account address; for the rest,
record `(baker_reward, transaction_fees)` for the address, both amounts
defaulting to zero when absent. -/
def collectRewards (events : List Event) : List (String × Rat × Rat) :=
  events.foldl
    (fun m event =>
      if event.tag ≠ EVENT_TAG_REWARD then m
      else
        match event.account with
        | none => m
        | some addr =>
          insertReplace m addr (event.baker_reward.getD 0, event.transaction_fees.getD 0))
    []

/-- The free function `insert_rewards` of `job/block.rs`: insert the
Baker-kind reward row, then the TransactionFee-kind reward row, for the
account and block. -/
def insert_rewards (repository : AccountRepository) (account_id : Int) (hash : String)
    (epoch_ms : Int) (baker fees : Rat) (st : Storage) : JobStep Unit :=
  match repository.set_reward
      { account_id := account_id, block_hash := hash, amount := baker,
        epoch_ms := epoch_ms, kind := .Baker } st with
  | (.error e, st1) => (.error (.repository e), st1)
  | (.ok _, st1) =>
    match repository.set_reward
        { account_id := account_id, block_hash := hash, amount := fees,
          epoch_ms := epoch_ms, kind := .TransactionFee } st1 with
    | (.error e, st2) => (.error (.repository e), st2)
    | (.ok _, st2) => (.ok (), st2)

/-- The `for account in accounts` loop of `BlockFetcher::do_rewards`: for
each matched account whose address has an entry in the reward map, insert
the Baker/TransactionFee reward pair. -/
def rewardLoop (repository : AccountRepository) (block_info : BlockInfo)
    (rewards : List (String × Rat × Rat)) :
    List Account → Storage → JobStep Unit
  | [], st => (.ok (), st)
  | account :: rest, st =>
    match lookupReward rewards account.address with
    | some (baker, fees) =>
      match insert_rewards repository account.id block_info.block_hash
          block_info.block_slot_time_ms baker fees st with
      | (.error e, st1) => (.error e, st1)
      | (.ok _, st1) => rewardLoop repository block_info rewards rest st1
    | none => rewardLoop repository block_info rewards rest st

/-- The method `BlockFetcher::do_rewards`: fetch the block summary, collect
the reward events, look up which addresses are known accounts, insert the
reward pairs for the matched accounts, and finally mark all event addresses
as pending for update. -/
def BlockFetcher.do_rewards (client : NodeClient) (account_repository : AccountRepository)
    (block_info : BlockInfo) (st : Storage) : JobStep Unit :=
  match client.get_block_summary block_info.block_hash with
  | .error e => (.error (.client e), st)
  | .ok summary =>
    let rewards := collectRewards summary.special_events
    match account_repository.get_accounts { addresses := some (rewards.map (·.1)) } st with
    | (.error e, st1) => (.error (.repository e), st1)
    | (.ok accounts, st1) =>
      match rewardLoop account_repository block_info rewards accounts st1 with
      | (.error e, st2) => (.error e, st2)
      | (.ok _, st2) =>
        match account_repository.set_for_update (rewards.map (·.1)) true st2 with
        | (.error e, st3) => (.error (.repository e), st3)
        | (.ok _, st3) => (.ok (), st3)

/-- The `NewBlock` built by `BlockFetcher::do_block`: a missing baker id
defaults to `0` (`info.block_baker.unwrap_or(0)`). -/
def mkNewBlock (info : BlockInfo) : NewBlock :=
  { hash := info.block_hash, height := info.block_height,
    slot_time_ms := info.block_slot_time_ms, baker := info.block_baker.getD 0 }

/-- The method `BlockFetcher::do_block`: fetch the block info, process the
rewards, then persist the block row. -/
def BlockFetcher.do_block (client : NodeClient) (block_repository : BlockRepository)
    (account_repository : AccountRepository) (block_hash : String) (st : Storage) :
    JobStep Unit :=
  match client.get_block_info block_hash with
  | .error e => (.error (.client e), st)
  | .ok info =>
    match BlockFetcher.do_rewards client account_repository info st with
    | (.error e, st1) => (.error e, st1)
    | (.ok _, st1) =>
      match block_repository.store (mkNewBlock info) st1 with
      | (.error e, st2) => (.error (.repository e), st2)
      | (.ok _, st2) => (.ok (), st2)

/-- The `while height <= last_block.height` loop of
`BlockFetcher::execute`, embedded with a fuel argument: the fuel is
`(tip + 1 - height).toNat`, the number of remaining loop iterations, so
fuel `0` is exactly the failed guard `height > tip`. Returns the height
reached when the loop stops: past the tip, or at the first height for which
the node reports no hash (the early `break`). -/
def fetchLoop (client : NodeClient) (block_repository : BlockRepository)
    (account_repository : AccountRepository) :
    Nat → Int → Storage → JobStep Int
  | 0, height, st => (.ok height, st)
  | fuel + 1, height, st =>
    match client.get_block_at_height height with
    | .error e => (.error (.client e), st)
    | .ok none => (.ok height, st)
    | .ok (some block_hash) =>
      match BlockFetcher.do_block client block_repository account_repository block_hash st with
      | (.error e, st1) => (.error e, st1)
      | (.ok _, st1) => fetchLoop client block_repository account_repository fuel (height + 1) st1

/-- The method `BlockFetcher::execute`: fetch the node tip, fetch the local
checkpoint, walk the heights in between, and garbage-collect blocks below
the reached height minus `GC_OFFSET`. -/
def BlockFetcher.execute (client : NodeClient) (block_repository : BlockRepository)
    (account_repository : AccountRepository) (st : Storage) : JobStep Unit :=
  match client.get_last_block with
  | .error e => (.error (.client e), st)
  | .ok last_block =>
    match block_repository.get_last_block st with
    | (.error e, st0) => (.error (.repository e), st0)
    | (.ok current_block, st0) =>
      let height := current_block.height + 1
      match fetchLoop client block_repository account_repository
          (last_block.height + 1 - height).toNat height st0 with
      | (.error e, st1) => (.error e, st1)
      | (.ok final_height, st1) =>
        match block_repository.garbage_collect (final_height - GC_OFFSET) st1 with
        | (.error e, st2) => (.error (.repository e), st2)
        | (.ok _, st2) => (.ok (), st2)

/-- The method `RefreshAccountsJob::do_account`: fetch the account info at
the tip hash, derive the stake (zero when not staking), fetch the optional
baker record, and upsert the account with `balance = total - stake`, the
baker's lottery power when present (zero otherwise), and `pending_update`
cleared. -/
def RefreshAccountsJob.do_account (client : NodeClient) (repository : AccountRepository)
    (last_block : NodeBlock) (account : Account) (st : Storage) : JobStep Unit :=
  match client.get_account_info last_block.hash account.address with
  | .error e => (.error (.client e), st)
  | .ok info =>
    let stake := (info.account_baker.map (·.staked_amount)).getD 0
    match client.get_baker last_block.hash account.address with
    | .error e => (.error (.client e), st)
    | .ok baker =>
      let new_account : NewAccount :=
        { address := account.address, balance := info.account_amount - stake,
          stake := stake, lottery_power := 0, pending_update := false }
      let new_account :=
        match baker with
        | some b => { new_account with lottery_power := b.baker_lottery_power }
        | none => new_account
      match repository.set_account new_account st with
      | (.error e, st1) => (.error (.repository e), st1)
      | (.ok _, st1) => (.ok (), st1)

/-- The `for account in accounts` loop of `RefreshAccountsJob::execute`. -/
def refreshLoop (client : NodeClient) (repository : AccountRepository)
    (last_block : NodeBlock) : List Account → Storage → JobStep Unit
  | [], st => (.ok (), st)
  | account :: rest, st =>
    match RefreshAccountsJob.do_account client repository last_block account st with
    | (.error e, st1) => (.error e, st1)
    | (.ok _, st1) => refreshLoop client repository last_block rest st1

/-- The method `RefreshAccountsJob::execute`: fetch the accounts flagged
for update, fetch the tip once, and refresh each account. -/
def RefreshAccountsJob.execute (client : NodeClient) (repository : AccountRepository)
    (st : Storage) : JobStep Unit :=
  match repository.get_for_update st with
  | (.error e, st0) => (.error (.repository e), st0)
  | (.ok accounts, st0) =>
    match client.get_last_block with
    | .error e => (.error (.client e), st0)
    | .ok last_block => refreshLoop client repository last_block accounts st0

/-- The report cap, `MAX_NUM_REPORT` in `job/status.rs`. -/
def MAX_NUM_REPORT : Int := 10000

/-- The method `StatusChecker::get_node_status`: three node queries, all of
which must succeed to produce the node JSON blob. -/
def StatusChecker.get_node_status (client : NodeClient) : Except AppError NodeStatusJson :=
  match client.get_node_info with
  | .error e => .error (.client e)
  | .ok node_info =>
    match client.get_node_uptime with
    | .error e => .error (.client e)
    | .ok uptime =>
      match client.get_node_stats with
      | .error e => .error (.client e)
      | .ok node_stats =>
        .ok { node_id := node_info.node_id, baker_id := node_info.baker_id,
              is_baker_committee := node_info.is_baker_committee,
              is_finalizer_committee := node_info.is_finalizer_committee,
              uptime_ms := uptime, peer_type := node_info.peer_type,
              peer_average_latency := node_stats.avg_latency,
              peer_count := node_stats.peer_count }

/-- The method `StatusChecker::execute`. The `resources` parameter is the
value of `get_system_stats()` — host-OS sampling outside the embedding,
which in the source always yields a `ResourceStatusJson` (individual
metrics degrade to `None` inside it, the gathering itself cannot fail the
tick) — and `now_ms` is `Utc::now().timestamp_millis()`. A failing node
query degrades the report's `node` field to `None`; the report is stored
and then the statuses table is capped to the most recent
`MAX_NUM_REPORT` rows. -/
def StatusChecker.execute (client : NodeClient) (repository : StatusRepository)
    (resources : ResourceStatusJson) (now_ms : Int) (st : Storage) : JobStep Unit :=
  let new_status : NewStatus :=
    { timestamp_ms := now_ms, resources := resources,
      node :=
        match StatusChecker.get_node_status client with
        | .ok n => some n
        | .error _ => none }
  match repository.report new_status st with
  | (.error e, st1) => (.error (.repository e), st1)
  | (.ok _, st1) =>
    match repository.garbage_collect MAX_NUM_REPORT st1 with
    | (.error e, st2) => (.error (.repository e), st2)
    | (.ok _, st2) => (.ok (), st2)

/-- The concrete scenario of the spec: the known account at address
`:address-1:`, initially not pending an update. -/
def c1AccountRow : AccountRow :=
  { id := 1, address := ":address-1:", lottery_power := 0, balance := 0,
    stake := 0, pending_update := false }

/-- The concrete scenario of the spec: a local checkpoint at height 100 and
the single known account. -/
def c1Storage : Storage :=
  { accounts := [c1AccountRow]
    account_rewards := []
    blocks := [{ id := 1, height := 100, hash := ":hash-100:", slot_time_ms := 0, baker := 42 }]
    statuses := []
    next_account_id := 2
    next_reward_id := 1
    next_block_id := 2
    next_status_id := 1 }

/-- The concrete scenario of the spec: a node whose tip is at height 101,
whose hash at height 101 is `:hash-101:`, and whose summary for that block
holds one `PaydayAccountReward` event for the known account with
`baker_reward = 2.5` and `transaction_fees = 0.125`. -/
def c1Client : NodeClient :=
  { get_last_block := .ok { hash := ":hash-101:", height := 101 }
    get_block_at_height := fun h => if h == 101 then .ok (some ":hash-101:") else .ok none
    get_block_info := fun hash =>
      if hash == ":hash-101:" then
        .ok { block_hash := ":hash-101:", block_height := 101, finalized := true,
              block_baker := some 42, block_slot_time_ms := 1000 }
      else .error .grpc
    get_block_summary := fun hash =>
      if hash == ":hash-101:" then
        .ok { special_events :=
          [{ tag := "PaydayAccountReward", account := some ":address-1:",
             baker_reward := some (mkRat 5 2), transaction_fees := some (mkRat 1 8),
             finalization_reward := none }] }
      else .error .grpc
    get_account_info := fun _ _ => .error .grpc
    get_baker := fun _ _ => .error .grpc
    get_node_info := .error .grpc
    get_node_uptime := .error .grpc
    get_node_stats := .error .grpc }

/-- The tick of the concrete scenario. -/
def c1Result : JobStep Unit :=
  BlockFetcher.execute c1Client sqliteBlockRepository sqliteAccountRepository c1Storage

/-- C1: with a local checkpoint at height 100, a node tip at height 101,
`get_block_at_height(101) = Some(":hash-101:")` and a summary holding one
`PaydayAccountReward` event for the known account with `baker_reward = 2.5`
and `transaction_fees = 0.125`, one `execute()` tick succeeds, stores
exactly one new block row for height 101 (none existed before), inserts
exactly two reward rows for that account and block hash — amount `2.5` of
kind `Baker` and amount `0.125` of kind `TransactionFee` — and sets the
account's `pending_update` flag to `true`. -/
theorem block_fetcher_concrete_scenario :
    c1Result.1 = .ok () ∧
    (c1Storage.blocks.filter (fun b => b.height == 101)).length = 0 ∧
    (c1Result.2.blocks.filter (fun b => b.height == 101)).length = 1 ∧
    (c1Result.2.account_rewards.filter (fun r =>
      r.account_id == 1 && r.block_hash == ":hash-101:")).length = 2 ∧
    (c1Result.2.account_rewards.filter (fun r =>
      r.account_id == 1 && r.block_hash == ":hash-101:" && r.kind == RewardKind.Baker &&
        r.amount == mkRat 5 2)).length = 1 ∧
    (c1Result.2.account_rewards.filter (fun r =>
      r.account_id == 1 && r.block_hash == ":hash-101:" &&
        r.kind == RewardKind.TransactionFee && r.amount == mkRat 1 8)).length = 1 ∧
    c1Result.2.accounts = [{ c1AccountRow with pending_update := true }] := by
  decide

/-- A run of the ingestion loop over `n` consecutive heights starting at
`height`, in which the node supplies a hash for every height and every
`do_block` succeeds; `none` otherwise. This phrases the "the loop reached
height H" hypothesis for partial-progress statements about `fetchLoop`. -/
def processRange (client : NodeClient) (block_repository : BlockRepository)
    (account_repository : AccountRepository) :
    Nat → Int → Storage → Option Storage
  | 0, _, st => some st
  | n + 1, height, st =>
    match client.get_block_at_height height with
    | .ok (some block_hash) =>
      match BlockFetcher.do_block client block_repository account_repository block_hash st with
      | (.ok _, st1) => processRange client block_repository account_repository n (height + 1) st1
      | (.error _, _) => none
    | _ => none

/-- The fetch loop, run with enough fuel, first performs any successful
prefix of iterations described by `processRange`. -/
lemma fetchLoop_after_processRange (client : NodeClient) (br : BlockRepository)
    (ar : AccountRepository) :
    ∀ (n fuel : Nat) (height : Int) (st st1 : Storage),
      processRange client br ar n height st = some st1 → n ≤ fuel →
      fetchLoop client br ar fuel height st =
        fetchLoop client br ar (fuel - n) (height + (n : Int)) st1 := by
  intro n
  induction n with
  | zero =>
    intro fuel height st st1 hp _
    simp only [processRange, Option.some.injEq] at hp
    subst hp
    simp
  | succ n ih =>
    intro fuel height st st1 hp hle
    obtain ⟨f, rfl⟩ : ∃ f, fuel = f + 1 := ⟨fuel - 1, by omega⟩
    simp only [processRange] at hp
    cases hcl : client.get_block_at_height height with
    | error e => rw [hcl] at hp; simp at hp
    | ok o =>
      cases o with
      | none => rw [hcl] at hp; simp at hp
      | some block_hash =>
        rw [hcl] at hp
        simp only at hp
        cases hdb : BlockFetcher.do_block client br ar block_hash st with
        | mk r st2 =>
          rw [hdb] at hp
          cases r with
          | error e => simp at hp
          | ok u =>
            simp only at hp
            have hgoal : fetchLoop client br ar (f + 1) height st =
                fetchLoop client br ar f (height + 1) st2 := by
              simp only [fetchLoop, hcl, hdb]
            rw [hgoal, ih f (height + 1) st2 st1 hp (by omega)]
            have harith1 : f - n = f + 1 - (n + 1) := by omega
            have harith2 : height + 1 + (n : Int) = height + ((n : Int) + 1) := by ring
            rw [harith1, harith2]
            norm_cast

/-- C3: when the node reports no hash for a height `H` at or below its tip
while every height before `H` was ingested successfully, `execute()` stops
at `H` — the final state contains exactly the partial progress made below
`H` — still returns success, and still garbage-collects with the boundary
`H - GC_OFFSET` computed from the partial height reached. -/
theorem block_fetcher_missing_hash (client : NodeClient) (st st1 : Storage)
    (tip : NodeBlock) (cur : Block) (H : Int)
    (hlast : client.get_last_block = .ok tip)
    (hcur : sqliteGetLastBlock st = (.ok cur, st))
    (hstart : cur.height + 1 ≤ H) (htip : H ≤ tip.height)
    (hproc : processRange client sqliteBlockRepository sqliteAccountRepository
        (H - (cur.height + 1)).toNat (cur.height + 1) st = some st1)
    (hnone : client.get_block_at_height H = .ok none) :
    BlockFetcher.execute client sqliteBlockRepository sqliteAccountRepository st =
      (.ok (), garbageCollectPure (H - GC_OFFSET) st1) := by
  have hbr : sqliteBlockRepository.get_last_block = sqliteGetLastBlock := rfl
  have hloop := fetchLoop_after_processRange client sqliteBlockRepository
    sqliteAccountRepository (H - (cur.height + 1)).toNat
    (tip.height + 1 - (cur.height + 1)).toNat (cur.height + 1) st st1 hproc (by omega)
  have harith : cur.height + 1 + (((H - (cur.height + 1)).toNat : Int)) = H := by omega
  have hfuel : (tip.height + 1 - (cur.height + 1)).toNat - (H - (cur.height + 1)).toNat =
      (tip.height - H).toNat + 1 := by omega
  rw [harith, hfuel] at hloop
  have hstop : fetchLoop client sqliteBlockRepository sqliteAccountRepository
      ((tip.height - H).toNat + 1) H st1 = (.ok H, st1) := by
    simp only [fetchLoop, hnone]
  unfold BlockFetcher.execute
  rw [hlast, hbr]
  simp only [hcur, hloop, hstop]
  rfl

/-- The number of stored reward rows whose `(account_id, block_hash, kind)`
triple matches the insert record's triple. -/
def countConflicts (nr : NewReward) (st : Storage) : Nat :=
  (st.account_rewards.filter (rewardConflict nr)).length

/-- Two insert records with the same triple have the same conflict
predicate. -/
lemma rewardConflict_congr (r1 r2 : NewReward)
    (ha : r2.account_id = r1.account_id) (hb : r2.block_hash = r1.block_hash)
    (hk : r2.kind = r1.kind) : rewardConflict r2 = rewardConflict r1 := by
  funext row
  simp [rewardConflict, ha, hb, hk]

/-- A freshly inserted reward row conflicts with its own insert record. -/
lemma rewardConflict_self (r1 : NewReward) (st : Storage) :
    rewardConflict r1
      { id := st.next_reward_id, account_id := r1.account_id,
        block_hash := r1.block_hash, epoch_ms := r1.epoch_ms,
        kind := r1.kind, amount := r1.amount } = true := by
  simp [rewardConflict]

/-- Unfolding of `setRewardPure` when a conflicting row exists: the insert
does nothing. -/
lemma setRewardPure_conflict (nr : NewReward) (st : Storage)
    (h : st.account_rewards.any (rewardConflict nr) = true) :
    setRewardPure nr st = st := by
  unfold setRewardPure
  simp only [h, if_true]

/-- Unfolding of `setRewardPure` when no conflicting row exists: the insert
appends a fresh row. -/
lemma setRewardPure_fresh (nr : NewReward) (st : Storage)
    (h : st.account_rewards.any (rewardConflict nr) = false) :
    setRewardPure nr st =
      { st with
        account_rewards := st.account_rewards ++
          [{ id := st.next_reward_id, account_id := nr.account_id,
             block_hash := nr.block_hash, epoch_ms := nr.epoch_ms,
             kind := nr.kind, amount := nr.amount }]
        next_reward_id := st.next_reward_id + 1 } := by
  unfold setRewardPure
  simp only [h, Bool.false_eq_true, if_false]

/-- With no conflicting row, the triple count is zero. -/
lemma countConflicts_eq_zero (nr : NewReward) (st : Storage)
    (h : st.account_rewards.any (rewardConflict nr) = false) :
    countConflicts nr st = 0 := by
  unfold countConflicts
  have hall := List.any_eq_false.mp h
  have : st.account_rewards.filter (rewardConflict nr) = [] :=
    List.filter_eq_nil_iff.mpr hall
  simp [this]

/-- With a conflicting row, the triple count is positive. -/
lemma countConflicts_pos (nr : NewReward) (st : Storage)
    (h : st.account_rewards.any (rewardConflict nr) = true) :
    0 < countConflicts nr st := by
  obtain ⟨row, hmem, hrow⟩ := List.any_eq_true.mp h
  have hf : row ∈ st.account_rewards.filter (rewardConflict nr) :=
    List.mem_filter.mpr ⟨hmem, hrow⟩
  have := List.length_pos.mpr (List.ne_nil_of_mem hf)
  simpa [countConflicts] using this

/-- C2: reward insertion is idempotent per `(account_id, block_hash, kind)`
triple. Starting from a store that respects the uniqueness constraint (at
most one row for the triple), inserting two records with the same triple
leaves the store exactly as after the first insert — the second insert is a
conflict-ignoring no-op — and exactly one row for that triple is stored. -/
theorem set_reward_idempotent (r1 r2 : NewReward) (st : Storage)
    (ha : r2.account_id = r1.account_id) (hb : r2.block_hash = r1.block_hash)
    (hk : r2.kind = r1.kind)
    (hinv : countConflicts r1 st ≤ 1) :
    setRewardPure r2 (setRewardPure r1 st) = setRewardPure r1 st ∧
    countConflicts r1 (setRewardPure r2 (setRewardPure r1 st)) = 1 := by
  have hpred : rewardConflict r2 = rewardConflict r1 :=
    rewardConflict_congr r1 r2 ha hb hk
  cases h : st.account_rewards.any (rewardConflict r1) with
  | true =>
    have h1 : setRewardPure r1 st = st := setRewardPure_conflict r1 st h
    have h2 : setRewardPure r2 st = st := by
      refine setRewardPure_conflict r2 st ?_
      rw [hpred]
      exact h
    rw [h1, h2]
    have hpos := countConflicts_pos r1 st h
    exact ⟨rfl, by omega⟩
  | false =>
    have hzero := countConflicts_eq_zero r1 st h
    have h1 := setRewardPure_fresh r1 st h
    have hany : (setRewardPure r1 st).account_rewards.any (rewardConflict r2) = true := by
      rw [h1, hpred]
      simp only [List.any_append, List.any_cons, List.any_nil,
        rewardConflict_self, Bool.or_true, Bool.true_or]
    have h2 : setRewardPure r2 (setRewardPure r1 st) = setRewardPure r1 st :=
      setRewardPure_conflict r2 (setRewardPure r1 st) hany
    refine ⟨h2, ?_⟩
    rw [h2, h1]
    unfold countConflicts at hzero ⊢
    simp only [List.filter_append, List.length_append] at *
    have hnil : st.account_rewards.filter (rewardConflict r1) = [] :=
      List.length_eq_zero.mp hzero
    rw [hnil]
    simp [rewardConflict_self]

/-- Witness for C2 at a concrete input: the empty-rewards store of the
concrete scenario, and two inserts of the same triple with different
amounts. -/
theorem set_reward_idempotent_witness :
    (countConflicts
        { account_id := 1, block_hash := ":hash-101:", amount := mkRat 5 2,
          epoch_ms := 1000, kind := .Baker } c1Storage ≤ 1) ∧
    (setRewardPure
        { account_id := 1, block_hash := ":hash-101:", amount := mkRat 7 2,
          epoch_ms := 1000, kind := .Baker }
        (setRewardPure
          { account_id := 1, block_hash := ":hash-101:", amount := mkRat 5 2,
            epoch_ms := 1000, kind := .Baker } c1Storage) =
      setRewardPure
        { account_id := 1, block_hash := ":hash-101:", amount := mkRat 5 2,
          epoch_ms := 1000, kind := .Baker } c1Storage ∧
    countConflicts
        { account_id := 1, block_hash := ":hash-101:", amount := mkRat 5 2,
          epoch_ms := 1000, kind := .Baker }
        (setRewardPure
          { account_id := 1, block_hash := ":hash-101:", amount := mkRat 7 2,
            epoch_ms := 1000, kind := .Baker }
          (setRewardPure
            { account_id := 1, block_hash := ":hash-101:", amount := mkRat 5 2,
              epoch_ms := 1000, kind := .Baker } c1Storage)) = 1) :=
  ⟨by decide,
    set_reward_idempotent
      { account_id := 1, block_hash := ":hash-101:", amount := mkRat 5 2,
        epoch_ms := 1000, kind := .Baker }
      { account_id := 1, block_hash := ":hash-101:", amount := mkRat 7 2,
        epoch_ms := 1000, kind := .Baker }
      c1Storage rfl rfl rfl (by decide)⟩

/-- A node for the C3 witness: the tip is at height 105 but no height has a
canonical hash yet. -/
def c3Client : NodeClient :=
  { get_last_block := .ok { hash := ":tip-105:", height := 105 }
    get_block_at_height := fun _ => .ok none
    get_block_info := fun _ => .error .grpc
    get_block_summary := fun _ => .error .grpc
    get_account_info := fun _ _ => .error .grpc
    get_baker := fun _ _ => .error .grpc
    get_node_info := .error .grpc
    get_node_uptime := .error .grpc
    get_node_stats := .error .grpc }

/-- Witness for C3 at a concrete input: checkpoint 100, tip 105, and no
hash at height 101 — the tick succeeds and garbage-collects with boundary
`101 - GC_OFFSET`. -/
theorem block_fetcher_missing_hash_witness :
    c3Client.get_last_block = .ok { hash := ":tip-105:", height := 105 } ∧
    sqliteGetLastBlock c1Storage =
      (.ok { id := 1, height := 100, hash := ":hash-100:", slot_time_ms := 0, baker := 42 },
       c1Storage) ∧
    c3Client.get_block_at_height 101 = .ok none ∧
    BlockFetcher.execute c3Client sqliteBlockRepository sqliteAccountRepository c1Storage =
      (.ok (), garbageCollectPure (101 - GC_OFFSET) c1Storage) :=
  ⟨rfl, by decide, rfl,
    block_fetcher_missing_hash c3Client c1Storage c1Storage
      { hash := ":tip-105:", height := 105 }
      { id := 1, height := 100, hash := ":hash-100:", slot_time_ms := 0, baker := 42 }
      101 rfl (by decide) (by decide) (by decide) (by decide) rfl⟩

/-- Reward insertion touches only the `account_rewards` table: the
`accounts` and `blocks` tables and the block id counter are unchanged. -/
lemma setRewardPure_frame (nr : NewReward) (st : Storage) :
    (setRewardPure nr st).accounts = st.accounts ∧
    (setRewardPure nr st).blocks = st.blocks ∧
    (setRewardPure nr st).next_block_id = st.next_block_id := by
  unfold setRewardPure
  split <;> simp

/-- With the SQLite repository, `insert_rewards` performs the two
conflict-ignoring inserts and succeeds. -/
lemma insert_rewards_sqlite (aid : Int) (hash : String) (ems : Int) (b f : Rat)
    (st : Storage) :
    insert_rewards sqliteAccountRepository aid hash ems b f st =
      (.ok (),
        setRewardPure
          { account_id := aid, block_hash := hash, amount := f, epoch_ms := ems,
            kind := .TransactionFee }
          (setRewardPure
            { account_id := aid, block_hash := hash, amount := b, epoch_ms := ems,
              kind := .Baker } st)) := rfl

/-- With the SQLite repository, the per-account reward loop never fails and
touches only the `account_rewards` table. -/
lemma rewardLoop_sqlite (info : BlockInfo) (rw : List (String × Rat × Rat)) :
    ∀ (accounts : List Account) (st : Storage),
      (rewardLoop sqliteAccountRepository info rw accounts st).1 = .ok () ∧
      (rewardLoop sqliteAccountRepository info rw accounts st).2.accounts = st.accounts ∧
      (rewardLoop sqliteAccountRepository info rw accounts st).2.blocks = st.blocks ∧
      (rewardLoop sqliteAccountRepository info rw accounts st).2.next_block_id =
        st.next_block_id := by
  intro accounts
  induction accounts with
  | nil => intro st; exact ⟨rfl, rfl, rfl, rfl⟩
  | cons account rest ih =>
    intro st
    unfold rewardLoop
    cases hl : lookupReward rw account.address with
    | none => simpa using ih st
    | some p =>
      obtain ⟨b, f⟩ := p
      dsimp only
      rw [insert_rewards_sqlite]
      dsimp only
      have hfr1 := setRewardPure_frame
        { account_id := account.id, block_hash := info.block_hash, amount := b,
          epoch_ms := info.block_slot_time_ms, kind := .Baker } st
      have hfr2 := setRewardPure_frame
        { account_id := account.id, block_hash := info.block_hash, amount := f,
          epoch_ms := info.block_slot_time_ms, kind := .TransactionFee }
        (setRewardPure
          { account_id := account.id, block_hash := info.block_hash, amount := b,
            epoch_ms := info.block_slot_time_ms, kind := .Baker } st)
      obtain ⟨ihok, ihacc, ihblocks, ihnext⟩ := ih (setRewardPure
        { account_id := account.id, block_hash := info.block_hash, amount := f,
          epoch_ms := info.block_slot_time_ms, kind := .TransactionFee }
        (setRewardPure
          { account_id := account.id, block_hash := info.block_hash, amount := b,
            epoch_ms := info.block_slot_time_ms, kind := .Baker } st))
      refine ⟨ihok, ?_, ?_, ?_⟩
      · rw [ihacc, hfr2.1, hfr1.1]
      · rw [ihblocks, hfr2.2.1, hfr1.2.1]
      · rw [ihnext, hfr2.2.2, hfr1.2.2]

/-- With the SQLite repository, once the node has produced a block summary,
`do_rewards` always succeeds and its only effect on the `accounts` table is
to set `pending_update := true` on exactly the stored rows whose address
appears among the block's collected reward-event addresses. -/
lemma do_rewards_sqlite_spec (client : NodeClient) (info : BlockInfo) (st : Storage)
    (summary : BlockSummary)
    (hsum : client.get_block_summary info.block_hash = .ok summary) :
    (BlockFetcher.do_rewards client sqliteAccountRepository info st).1 = .ok () ∧
    (BlockFetcher.do_rewards client sqliteAccountRepository info st).2.accounts =
      st.accounts.map (fun r =>
        if ((collectRewards summary.special_events).map (·.1)).contains r.address then
          { r with pending_update := true }
        else r) := by
  unfold BlockFetcher.do_rewards
  rw [hsum]
  dsimp only
  have hga : sqliteAccountRepository.get_accounts
      { addresses := some ((collectRewards summary.special_events).map (·.1)) } st =
      (.ok (sqliteGetAccounts
        { addresses := some ((collectRewards summary.special_events).map (·.1)) } st),
       st) := rfl
  rw [hga]
  dsimp only
  obtain ⟨hok, hacc, -, -⟩ := rewardLoop_sqlite info (collectRewards summary.special_events)
    (sqliteGetAccounts
      { addresses := some ((collectRewards summary.special_events).map (·.1)) } st) st
  cases hrl : rewardLoop sqliteAccountRepository info (collectRewards summary.special_events)
      (sqliteGetAccounts
        { addresses := some ((collectRewards summary.special_events).map (·.1)) } st) st with
  | mk r st2 =>
    rw [hrl] at hok hacc
    dsimp only at hok hacc
    subst hok
    dsimp only
    have hsf : sqliteAccountRepository.set_for_update
        ((collectRewards summary.special_events).map (·.1)) true st2 =
        (.ok (), setForUpdatePure
          ((collectRewards summary.special_events).map (·.1)) true st2) := rfl
    rw [hsf]
    refine ⟨rfl, ?_⟩
    unfold setForUpdatePure
    dsimp only
    rw [hacc]

/-- A block whose summary carries reward events, for the reward-marking
scenarios: height 200 on top of a checkpoint at 199. -/
def rewardScenarioInfo : BlockInfo :=
  { block_hash := ":hash-200:", block_height := 200, finalized := true,
    block_baker := some 7, block_slot_time_ms := 5000 }

/-- A summary with two `PaydayAccountReward` events: one for the known
account `:addr-a:` and one for `:addr-unknown:`, an address with no stored
account row. -/
def rewardScenarioSummary : BlockSummary :=
  { special_events :=
      [{ tag := "PaydayAccountReward", account := some ":addr-a:",
         baker_reward := some (mkRat 3 2), transaction_fees := some (mkRat 1 4),
         finalization_reward := none },
       { tag := "PaydayAccountReward", account := some ":addr-unknown:",
         baker_reward := some (mkRat 1 2), transaction_fees := none,
         finalization_reward := none }] }

/-- The node of the reward-marking scenarios. -/
def rewardScenarioClient : NodeClient :=
  { get_last_block := .ok { hash := ":hash-200:", height := 200 }
    get_block_at_height := fun h => if h == 200 then .ok (some ":hash-200:") else .ok none
    get_block_info := fun hash =>
      if hash == ":hash-200:" then .ok rewardScenarioInfo else .error .grpc
    get_block_summary := fun hash =>
      if hash == ":hash-200:" then .ok rewardScenarioSummary else .error .grpc
    get_account_info := fun _ _ => .error .grpc
    get_baker := fun _ _ => .error .grpc
    get_node_info := .error .grpc
    get_node_uptime := .error .grpc
    get_node_stats := .error .grpc }

/-- The storage of the reward-marking scenarios: the known account
`:addr-a:` (not pending an update) and a checkpoint at height 199; no
account row exists for `:addr-unknown:`. -/
def rewardScenarioStorage : Storage :=
  { accounts := [{ id := 1, address := ":addr-a:", lottery_power := 0, balance := 0,
                   stake := 0, pending_update := false }]
    account_rewards := []
    blocks := [{ id := 1, height := 199, hash := ":hash-199:", slot_time_ms := 0, baker := 7 }]
    statuses := []
    next_account_id := 2
    next_reward_id := 1
    next_block_id := 2
    next_status_id := 1 }

/-- An account repository whose reward insert fails — the storage layer
rejecting the write, exactly as exercised by the repository's own
`test_set_reward_failure` and by the mocks — while every other operation
behaves like the SQLite one. -/
def failingRewardRepository : AccountRepository :=
  { sqliteAccountRepository with set_reward := fun _ st => (.error .Faillable, st) }

/-- Counterexample to C4 as stated: in a tick whose block carries a
`PaydayAccountReward` for the known account `:addr-a:`, a failing
`set_reward` aborts `do_rewards` through the `?` operator before
`set_for_update` runs, so the tick fails and the account's
`pending_update` flag is still `false` afterwards — not `true`
independent of the reward writes. -/
theorem pending_update_lost_on_reward_failure :
    ((collectRewards rewardScenarioSummary.special_events).map (·.1)).contains ":addr-a:" =
      true ∧
    (rewardScenarioStorage.accounts.filter (fun a => a.address == ":addr-a:")).map
      (·.pending_update) = [false] ∧
    (BlockFetcher.execute rewardScenarioClient sqliteBlockRepository failingRewardRepository
      rewardScenarioStorage).1 = .error (.repository .Faillable) ∧
    ((BlockFetcher.execute rewardScenarioClient sqliteBlockRepository failingRewardRepository
      rewardScenarioStorage).2.accounts.filter (fun a => a.address == ":addr-a:")).map
      (·.pending_update) = [false] := by
  decide

/-- C4 amended: when the tick's reward-row writes go through (the SQLite
repository, whose conflict-ignoring inserts cannot fail), every stored
account whose address appears among the block's reward-event addresses has
`pending_update = true` after `do_rewards`; when a reward write fails, the
error propagates before `set_for_update` and no flag is set. -/
theorem pending_update_set_when_rewards_written (client : NodeClient) (info : BlockInfo)
    (st : Storage) (summary : BlockSummary) (row : AccountRow)
    (hsum : client.get_block_summary info.block_hash = .ok summary)
    (hrow : row ∈ (BlockFetcher.do_rewards client sqliteAccountRepository info st).2.accounts)
    (haddr : ((collectRewards summary.special_events).map (·.1)).contains row.address = true) :
    (BlockFetcher.do_rewards client sqliteAccountRepository info st).1 = .ok () ∧
    row.pending_update = true := by
  obtain ⟨hok, hacc⟩ := do_rewards_sqlite_spec client info st summary hsum
  refine ⟨hok, ?_⟩
  rw [hacc] at hrow
  obtain ⟨orig, hmem, heq⟩ := List.mem_map.mp hrow
  by_cases hc : ((collectRewards summary.special_events).map (·.1)).contains orig.address = true
  · rw [if_pos hc] at heq
    rw [← heq]
  · rw [if_neg hc] at heq
    subst heq
    exact absurd haddr hc

/-- Witness for the amended C4 at a concrete input: after the reward
scenario's tick with the SQLite repository, the known account's row is a
member of the final accounts and is pending an update. -/
theorem pending_update_set_when_rewards_written_witness :
    rewardScenarioClient.get_block_summary rewardScenarioInfo.block_hash =
      .ok rewardScenarioSummary ∧
    ({ id := 1, address := ":addr-a:", lottery_power := 0, balance := 0, stake := 0,
       pending_update := true } ∈
      (BlockFetcher.do_rewards rewardScenarioClient sqliteAccountRepository rewardScenarioInfo
        rewardScenarioStorage).2.accounts) ∧
    ((collectRewards rewardScenarioSummary.special_events).map (·.1)).contains ":addr-a:" =
      true ∧
    ((BlockFetcher.do_rewards rewardScenarioClient sqliteAccountRepository rewardScenarioInfo
        rewardScenarioStorage).1 = .ok () ∧
      ({ id := 1, address := ":addr-a:", lottery_power := 0, balance := 0, stake := 0,
         pending_update := true } : AccountRow).pending_update = true) :=
  ⟨by decide, by decide, by decide,
    pending_update_set_when_rewards_written rewardScenarioClient rewardScenarioInfo
      rewardScenarioStorage rewardScenarioSummary
      { id := 1, address := ":addr-a:", lottery_power := 0, balance := 0, stake := 0,
        pending_update := true }
      (by decide) (by decide) (by decide)⟩

/-- Counterexample to C5 as stated: the address `:addr-unknown:` appears in
the block's `PaydayAccountReward` events, the tick succeeds, yet afterwards
no account row for that address exists in storage at all — so it did not
end up "marked `pending_update = true` in storage". `set_for_update` is a
plain `UPDATE` and creates no rows. -/
theorem unknown_reward_address_not_marked :
    ((collectRewards rewardScenarioSummary.special_events).map (·.1)).contains
      ":addr-unknown:" = true ∧
    (BlockFetcher.execute rewardScenarioClient sqliteBlockRepository sqliteAccountRepository
      rewardScenarioStorage).1 = .ok () ∧
    ((BlockFetcher.execute rewardScenarioClient sqliteBlockRepository sqliteAccountRepository
      rewardScenarioStorage).2.accounts.filter
        (fun a => a.address == ":addr-unknown:")).length = 0 := by
  decide

/-- C5 amended: `do_rewards` hands every reward-event address to
`set_for_update`, but that call only flips the flag on rows that already
exist: after a successful `do_rewards`, the accounts table holds exactly
the prior rows — each marked `pending_update = true` precisely when its
address appears among the block's reward-event addresses — and no row is
created for unmatched addresses. -/
theorem pending_update_marks_only_stored_accounts (client : NodeClient) (info : BlockInfo)
    (st : Storage) (summary : BlockSummary)
    (hsum : client.get_block_summary info.block_hash = .ok summary) :
    (BlockFetcher.do_rewards client sqliteAccountRepository info st).2.accounts.map
        (fun r => (r.id, r.address)) = st.accounts.map (fun r => (r.id, r.address)) ∧
    (BlockFetcher.do_rewards client sqliteAccountRepository info st).2.accounts =
      st.accounts.map (fun r =>
        if ((collectRewards summary.special_events).map (·.1)).contains r.address then
          { r with pending_update := true }
        else r) := by
  obtain ⟨-, hacc⟩ := do_rewards_sqlite_spec client info st summary hsum
  refine ⟨?_, hacc⟩
  rw [hacc, List.map_map]
  refine List.map_congr_left ?_
  intro a _
  dsimp only [Function.comp]
  by_cases hc : ((collectRewards summary.special_events).map (·.1)).contains a.address = true
  · rw [if_pos hc]
  · rw [if_neg hc]

/-- Witness for the amended C5 at a concrete input: the reward scenario's
`do_rewards` preserves the account rows' identities and marks exactly the
stored row for `:addr-a:`. -/
theorem pending_update_marks_only_stored_accounts_witness :
    rewardScenarioClient.get_block_summary rewardScenarioInfo.block_hash =
      .ok rewardScenarioSummary ∧
    ((BlockFetcher.do_rewards rewardScenarioClient sqliteAccountRepository rewardScenarioInfo
        rewardScenarioStorage).2.accounts.map (fun r => (r.id, r.address)) =
      rewardScenarioStorage.accounts.map (fun r => (r.id, r.address)) ∧
    (BlockFetcher.do_rewards rewardScenarioClient sqliteAccountRepository rewardScenarioInfo
        rewardScenarioStorage).2.accounts =
      rewardScenarioStorage.accounts.map (fun r =>
        if ((collectRewards rewardScenarioSummary.special_events).map (·.1)).contains
            r.address then
          { r with pending_update := true }
        else r)) :=
  ⟨by decide,
    pending_update_marks_only_stored_accounts rewardScenarioClient rewardScenarioInfo
      rewardScenarioStorage rewardScenarioSummary (by decide)⟩

/-- A storage with no blocks at all, for the empty-checkpoint scenario. -/
def emptyBlocksStorage : Storage :=
  { accounts := [], account_rewards := [], blocks := [], statuses := [],
    next_account_id := 1, next_reward_id := 1, next_block_id := 1, next_status_id := 1 }

/-- Counterexample to C6 as stated: on an empty block table
`get_last_block` does produce the distinct `NotFound` outcome, but
`BlockFetcher::execute` does not branch on it — the `?` operator at
`job/block.rs` propagates it, so the whole tick fails with that error. -/
theorem not_found_not_branched_on :
    sqliteGetLastBlock emptyBlocksStorage = (.error .NotFound, emptyBlocksStorage) ∧
    (BlockFetcher.execute rewardScenarioClient sqliteBlockRepository sqliteAccountRepository
      emptyBlocksStorage).1 = .error (.repository .NotFound) := by
  decide

/-- C6 amended: when no block is stored, `get_last_block` returns the
distinct `NotFound` outcome (not an opaque failure), and `execute()`
propagates it as a failed tick — there is no explicit branch on it in
`BlockFetcher::execute`. -/
theorem get_last_block_not_found_fails_tick (client : NodeClient) (st : Storage)
    (tip : NodeBlock)
    (hlast : client.get_last_block = .ok tip)
    (hempty : st.blocks = []) :
    sqliteGetLastBlock st = (.error .NotFound, st) ∧
    BlockFetcher.execute client sqliteBlockRepository sqliteAccountRepository st =
      (.error (.repository .NotFound), st) := by
  have hmax : maxHeightRow st.blocks = none := by
    rw [hempty]
    rfl
  have hglb : sqliteGetLastBlock st = (.error .NotFound, st) := by
    unfold sqliteGetLastBlock
    rw [hmax]
  refine ⟨hglb, ?_⟩
  have hbr : sqliteBlockRepository.get_last_block = sqliteGetLastBlock := rfl
  unfold BlockFetcher.execute
  rw [hlast, hbr]
  simp only [hglb]

/-- Witness for the amended C6 at a concrete input: an empty block table
makes the tick fail with the repository's `NotFound`. -/
theorem get_last_block_not_found_fails_tick_witness :
    rewardScenarioClient.get_last_block = .ok { hash := ":hash-200:", height := 200 } ∧
    emptyBlocksStorage.blocks = [] ∧
    (sqliteGetLastBlock emptyBlocksStorage = (.error .NotFound, emptyBlocksStorage) ∧
      BlockFetcher.execute rewardScenarioClient sqliteBlockRepository sqliteAccountRepository
        emptyBlocksStorage = (.error (.repository .NotFound), emptyBlocksStorage)) :=
  ⟨rfl, rfl,
    get_last_block_not_found_fails_tick rewardScenarioClient emptyBlocksStorage
      { hash := ":hash-200:", height := 200 } rfl rfl⟩

/-- In a list of account rows containing some row for the upsert's address,
the address-keyed update of `setAccountPure` leaves a findable row carrying
exactly the upserted fields. -/
lemma find_in_updated_rows (na : NewAccount) :
    ∀ (l : List AccountRow), l.any (fun r => r.address == na.address) = true →
      ∃ row,
        (l.map (fun r =>
          if r.address == na.address then
            { r with
              balance := na.balance
              stake := na.stake
              lottery_power := na.lottery_power
              pending_update := na.pending_update }
          else r)).find? (fun r => r.address == na.address) = some row ∧
        row.address = na.address ∧ row.balance = na.balance ∧ row.stake = na.stake ∧
        row.lottery_power = na.lottery_power ∧ row.pending_update = na.pending_update := by
  intro l
  induction l with
  | nil => intro h; simp at h
  | cons a l ih =>
    intro h
    cases ha : (a.address == na.address) with
    | true =>
      have haddr : a.address = na.address := eq_of_beq ha
      rw [List.map_cons]
      rw [if_pos ha]
      refine ⟨{ a with
                balance := na.balance
                stake := na.stake
                lottery_power := na.lottery_power
                pending_update := na.pending_update },
              ?_, haddr, rfl, rfl, rfl, rfl⟩
      exact List.find?_cons_of_pos _ ha
    | false =>
      have htail : l.any (fun r => r.address == na.address) = true := by
        rw [List.any_cons, ha] at h
        simpa using h
      obtain ⟨row, hfind, hfields⟩ := ih htail
      rw [List.map_cons]
      rw [if_neg (by rw [ha]; exact Bool.false_ne_true)]
      refine ⟨row, ?_, hfields⟩
      rw [List.find?_cons_of_neg _ (by rw [ha]; exact Bool.false_ne_true), hfind]

/-- After the upsert of `setAccountPure`, the row found by address carries
exactly the upserted fields. -/
lemma setAccountPure_find (na : NewAccount) (st : Storage) :
    ∃ row,
      (setAccountPure na st).accounts.find? (fun r => r.address == na.address) = some row ∧
      row.address = na.address ∧ row.balance = na.balance ∧ row.stake = na.stake ∧
      row.lottery_power = na.lottery_power ∧ row.pending_update = na.pending_update := by
  unfold setAccountPure
  cases hany : st.accounts.any (fun r => r.address == na.address) with
  | false =>
    rw [if_neg Bool.false_ne_true]
    have hall := List.any_eq_false.mp hany
    have hnone : st.accounts.find? (fun r => r.address == na.address) = none :=
      List.find?_eq_none.mpr hall
    refine ⟨{ id := st.next_account_id, address := na.address,
              lottery_power := na.lottery_power, balance := na.balance,
              stake := na.stake, pending_update := na.pending_update },
            ?_, rfl, rfl, rfl, rfl, rfl⟩
    rw [List.find?_append, hnone]
    simp [List.find?]
  | true =>
    rw [if_pos rfl]
    exact find_in_updated_rows na st.accounts hany

/-- C7: for an account processed by `RefreshAccountsJob`, once the node's
two queries answer, the tick step succeeds and the row upserted for the
account's address has `balance = total_amount - staked_amount` (with the
staked amount zero when the account is not staking), `stake` equal to the
staked amount, `lottery_power` equal to the baker's reported lottery power
when a baker record exists and `0` otherwise, and `pending_update` cleared
to `false`. -/
theorem refresh_account_fields (client : NodeClient) (last_block : NodeBlock)
    (account : Account) (st : Storage) (info : AccountInfo) (bopt : Option Baker)
    (hinfo : client.get_account_info last_block.hash account.address = .ok info)
    (hbaker : client.get_baker last_block.hash account.address = .ok bopt) :
    (RefreshAccountsJob.do_account client sqliteAccountRepository last_block account st).1 =
      .ok () ∧
    ∃ row,
      (RefreshAccountsJob.do_account client sqliteAccountRepository last_block account
          st).2.accounts.find? (fun r => r.address == account.address) = some row ∧
      row.balance = info.account_amount - (info.account_baker.map (·.staked_amount)).getD 0 ∧
      row.stake = (info.account_baker.map (·.staked_amount)).getD 0 ∧
      (info.account_baker = none → row.stake = 0) ∧
      row.lottery_power = (bopt.map (·.baker_lottery_power)).getD 0 ∧
      row.pending_update = false := by
  unfold RefreshAccountsJob.do_account
  rw [hinfo]
  dsimp only
  cases bopt with
  | none =>
    rw [hbaker]
    dsimp only
    obtain ⟨row, hfind, hfa, hfb, hfs, hfl, hfp⟩ := setAccountPure_find
      { address := account.address,
        balance := info.account_amount - (info.account_baker.map (·.staked_amount)).getD 0,
        stake := (info.account_baker.map (·.staked_amount)).getD 0,
        lottery_power := 0, pending_update := false } st
    have hset : sqliteAccountRepository.set_account
        { address := account.address,
          balance := info.account_amount - (info.account_baker.map (·.staked_amount)).getD 0,
          stake := (info.account_baker.map (·.staked_amount)).getD 0,
          lottery_power := 0, pending_update := false } st =
        (.ok row.toAccount,
          setAccountPure
            { address := account.address,
              balance := info.account_amount -
                (info.account_baker.map (·.staked_amount)).getD 0,
              stake := (info.account_baker.map (·.staked_amount)).getD 0,
              lottery_power := 0, pending_update := false } st) := by
      show sqliteSetAccount _ st = _
      unfold sqliteSetAccount
      dsimp only
      rw [hfind]
    rw [hset]
    refine ⟨rfl, row, hfind, hfb, hfs, ?_, hfl, hfp⟩
    intro h
    rw [hfs, h]
    rfl
  | some b =>
    rw [hbaker]
    dsimp only
    obtain ⟨row, hfind, hfa, hfb, hfs, hfl, hfp⟩ := setAccountPure_find
      { address := account.address,
        balance := info.account_amount - (info.account_baker.map (·.staked_amount)).getD 0,
        stake := (info.account_baker.map (·.staked_amount)).getD 0,
        lottery_power := b.baker_lottery_power, pending_update := false } st
    have hset : sqliteAccountRepository.set_account
        { address := account.address,
          balance := info.account_amount - (info.account_baker.map (·.staked_amount)).getD 0,
          stake := (info.account_baker.map (·.staked_amount)).getD 0,
          lottery_power := b.baker_lottery_power, pending_update := false } st =
        (.ok row.toAccount,
          setAccountPure
            { address := account.address,
              balance := info.account_amount -
                (info.account_baker.map (·.staked_amount)).getD 0,
              stake := (info.account_baker.map (·.staked_amount)).getD 0,
              lottery_power := b.baker_lottery_power, pending_update := false } st) := by
      show sqliteSetAccount _ st = _
      unfold sqliteSetAccount
      dsimp only
      rw [hfind]
    rw [hset]
    refine ⟨rfl, row, hfind, hfb, hfs, ?_, hfl, hfp⟩
    intro h
    rw [hfs, h]
    rfl

/-- Node data for the C7 witness: the account holds 42 CCD and is not
staking. -/
def c7Info : AccountInfo :=
  { account_nonce := 0, account_amount := mkRat 42 1, account_index := 123,
    account_address := ":addr-a:", account_baker := none }

/-- Baker record for the C7 witness. -/
def c7Baker : Baker :=
  { baker_account := ":addr-a:", baker_id := 1, baker_lottery_power := mkRat 1 2 }

/-- The tip block of the C7 witness. -/
def c7Tip : NodeBlock := { hash := ":tip:", height := 0 }

/-- The node of the C7 witness. -/
def c7Client : NodeClient :=
  { get_last_block := .ok c7Tip
    get_block_at_height := fun _ => .ok none
    get_block_info := fun _ => .error .grpc
    get_block_summary := fun _ => .error .grpc
    get_account_info := fun hash addr =>
      if hash == ":tip:" && addr == ":addr-a:" then .ok c7Info else .error .grpc
    get_baker := fun hash addr =>
      if hash == ":tip:" && addr == ":addr-a:" then .ok (some c7Baker) else .error .grpc
    get_node_info := .error .grpc
    get_node_uptime := .error .grpc
    get_node_stats := .error .grpc }

/-- The refreshed account of the C7 witness. -/
def c7Account : Account :=
  { id := 1, address := ":addr-a:", balance := 0, stake := 0, lottery_power := 0 }

/-- Witness for C7 at a concrete input: a non-staking account holding 42
with a baker record of lottery power one half. -/
theorem refresh_account_fields_witness :
    c7Client.get_account_info c7Tip.hash c7Account.address = .ok c7Info ∧
    c7Client.get_baker c7Tip.hash c7Account.address = .ok (some c7Baker) ∧
    ((RefreshAccountsJob.do_account c7Client sqliteAccountRepository c7Tip c7Account
        rewardScenarioStorage).1 = .ok () ∧
      ∃ row,
        (RefreshAccountsJob.do_account c7Client sqliteAccountRepository c7Tip c7Account
            rewardScenarioStorage).2.accounts.find?
          (fun r => r.address == c7Account.address) = some row ∧
        row.balance =
          c7Info.account_amount - (c7Info.account_baker.map (·.staked_amount)).getD 0 ∧
        row.stake = (c7Info.account_baker.map (·.staked_amount)).getD 0 ∧
        (c7Info.account_baker = none → row.stake = 0) ∧
        row.lottery_power = ((some c7Baker).map (·.baker_lottery_power)).getD 0 ∧
        row.pending_update = false) :=
  ⟨by decide, by decide,
    refresh_account_fields c7Client c7Tip c7Account rewardScenarioStorage c7Info
      (some c7Baker) (by decide) (by decide)⟩

/-- C8: when the node queries fail while host-metric gathering succeeded,
the tick still succeeds: a report whose `node` field is `None` is stored,
and afterwards the statuses table is garbage-collected to the most recent
`MAX_NUM_REPORT` rows — every surviving row's id is among the ids of the
10000 most recent reports. -/
theorem status_checker_degrades_node_to_none (client : NodeClient)
    (resources : ResourceStatusJson) (now_ms : Int) (st : Storage) (e : AppError)
    (hfail : StatusChecker.get_node_status client = .error e) :
    StatusChecker.execute client sqliteStatusRepository resources now_ms st =
      (.ok (), gcStatusesPure MAX_NUM_REPORT
        (reportPure { timestamp_ms := now_ms, resources := resources, node := none } st)) ∧
    ∀ r ∈ (gcStatusesPure MAX_NUM_REPORT
        (reportPure { timestamp_ms := now_ms, resources := resources, node := none }
          st)).statuses,
      r.id ∈ statusKeepIds
        (reportPure { timestamp_ms := now_ms, resources := resources, node := none }
          st).statuses MAX_NUM_REPORT := by
  constructor
  · unfold StatusChecker.execute
    rw [hfail]
    rfl
  · intro r hr
    have := List.of_mem_filter hr
    simpa using this

/-- Witness for C8 at a concrete input: the reward-scenario node fails all
node-status queries, yet a report with `node = none` is stored and capped. -/
theorem status_checker_degrades_node_to_none_witness :
    StatusChecker.get_node_status rewardScenarioClient = .error (.client .grpc) ∧
    (StatusChecker.execute rewardScenarioClient sqliteStatusRepository
        { avg_cpu_load := some (mkRat 1 10), mem_free := some 1024, mem_total := some 2048,
          uptime_secs := some 3600 } 777 emptyBlocksStorage =
      (.ok (), gcStatusesPure MAX_NUM_REPORT
        (reportPure
          { timestamp_ms := 777,
            resources :=
              { avg_cpu_load := some (mkRat 1 10), mem_free := some 1024,
                mem_total := some 2048, uptime_secs := some 3600 },
            node := none } emptyBlocksStorage)) ∧
      ∀ r ∈ (gcStatusesPure MAX_NUM_REPORT
          (reportPure
            { timestamp_ms := 777,
              resources :=
                { avg_cpu_load := some (mkRat 1 10), mem_free := some 1024,
                  mem_total := some 2048, uptime_secs := some 3600 },
              node := none } emptyBlocksStorage)).statuses,
        r.id ∈ statusKeepIds
          (reportPure
            { timestamp_ms := 777,
              resources :=
                { avg_cpu_load := some (mkRat 1 10), mem_free := some 1024,
                  mem_total := some 2048, uptime_secs := some 3600 },
              node := none } emptyBlocksStorage).statuses MAX_NUM_REPORT) :=
  ⟨by decide,
    status_checker_degrades_node_to_none rewardScenarioClient
      { avg_cpu_load := some (mkRat 1 10), mem_free := some 1024, mem_total := some 2048,
        uptime_secs := some 3600 } 777 emptyBlocksStorage (.client .grpc) (by decide)⟩

/-- With the SQLite repository, `do_rewards` never touches the `blocks`
table or its id counter, whatever its outcome. -/
lemma do_rewards_blocks_frame (client : NodeClient) (info : BlockInfo) (st : Storage) :
    (BlockFetcher.do_rewards client sqliteAccountRepository info st).2.blocks = st.blocks ∧
    (BlockFetcher.do_rewards client sqliteAccountRepository info st).2.next_block_id =
      st.next_block_id := by
  unfold BlockFetcher.do_rewards
  cases hsum : client.get_block_summary info.block_hash with
  | error e => exact ⟨rfl, rfl⟩
  | ok summary =>
    dsimp only
    have hga : sqliteAccountRepository.get_accounts
        { addresses := some ((collectRewards summary.special_events).map (·.1)) } st =
        (.ok (sqliteGetAccounts
          { addresses := some ((collectRewards summary.special_events).map (·.1)) } st),
         st) := rfl
    rw [hga]
    dsimp only
    obtain ⟨hok, -, hblocks, hnext⟩ :=
      rewardLoop_sqlite info (collectRewards summary.special_events)
        (sqliteGetAccounts
          { addresses := some ((collectRewards summary.special_events).map (·.1)) } st) st
    cases hrl : rewardLoop sqliteAccountRepository info (collectRewards summary.special_events)
        (sqliteGetAccounts
          { addresses := some ((collectRewards summary.special_events).map (·.1)) } st) st with
    | mk r st2 =>
      rw [hrl] at hok hblocks hnext
      dsimp only at hok hblocks hnext
      subst hok
      dsimp only
      exact ⟨hblocks, hnext⟩

/-- C10: a node block with no baker (`block_baker = None`) is stored with
`baker = 0`; the insert record is literally the one a block actually baked
by baker id `0` would produce, so the two are indistinguishable in storage.
A successful `do_block` appends exactly that row with `baker = 0`. -/
theorem missing_baker_stored_as_zero (client : NodeClient) (st st1 : Storage)
    (bh : String) (info : BlockInfo)
    (hinfo : client.get_block_info bh = .ok info)
    (hb : info.block_baker = none)
    (hok : BlockFetcher.do_block client sqliteBlockRepository sqliteAccountRepository bh st =
      (.ok (), st1)) :
    (mkNewBlock info).baker = 0 ∧
    mkNewBlock info = mkNewBlock { info with block_baker := some 0 } ∧
    st1.blocks = st.blocks ++
      [{ id := st.next_block_id, height := info.block_height, hash := info.block_hash,
         slot_time_ms := info.block_slot_time_ms, baker := 0 }] := by
  have hmk : (mkNewBlock info).baker = 0 := by
    unfold mkNewBlock
    rw [hb]
    rfl
  refine ⟨hmk, ?_, ?_⟩
  · unfold mkNewBlock
    rw [hb]
    rfl
  · unfold BlockFetcher.do_block at hok
    rw [hinfo] at hok
    dsimp only at hok
    obtain ⟨hblocks, hnext⟩ := do_rewards_blocks_frame client info st
    cases hdr : BlockFetcher.do_rewards client sqliteAccountRepository info st with
    | mk r st2 =>
      rw [hdr] at hok hblocks hnext
      dsimp only at hblocks hnext
      cases r with
      | error e => simp at hok
      | ok u =>
        dsimp only at hok
        have hok' : ((Except.ok () : Except AppError Unit),
            storeBlockPure (mkNewBlock info) st2) = (Except.ok (), st1) := hok
        have hst1 : st1 = storeBlockPure (mkNewBlock info) st2 :=
          (congrArg Prod.snd hok').symm
        rw [hst1]
        unfold storeBlockPure mkNewBlock
        rw [hb]
        dsimp only
        rw [hblocks, hnext]
        rfl

/-- A block at height 300 reported without a baker, for the C10 witness. -/
def c10Info : BlockInfo :=
  { block_hash := ":hash-300:", block_height := 300, finalized := true,
    block_baker := none, block_slot_time_ms := 9000 }

/-- The node of the C10 witness: block 300 has no baker and an empty
summary. -/
def c10Client : NodeClient :=
  { get_last_block := .ok { hash := ":hash-300:", height := 300 }
    get_block_at_height := fun h => if h == 300 then .ok (some ":hash-300:") else .ok none
    get_block_info := fun hash =>
      if hash == ":hash-300:" then .ok c10Info else .error .grpc
    get_block_summary := fun hash =>
      if hash == ":hash-300:" then .ok { special_events := [] } else .error .grpc
    get_account_info := fun _ _ => .error .grpc
    get_baker := fun _ _ => .error .grpc
    get_node_info := .error .grpc
    get_node_uptime := .error .grpc
    get_node_stats := .error .grpc }

/-- Witness for C10 at a concrete input: ingesting block 300, whose info
carries no baker, stores a row with `baker = 0`. -/
theorem missing_baker_stored_as_zero_witness :
    c10Client.get_block_info ":hash-300:" = .ok c10Info ∧
    c10Info.block_baker = none ∧
    BlockFetcher.do_block c10Client sqliteBlockRepository sqliteAccountRepository ":hash-300:"
        rewardScenarioStorage =
      (.ok (), (BlockFetcher.do_block c10Client sqliteBlockRepository sqliteAccountRepository
        ":hash-300:" rewardScenarioStorage).2) ∧
    ((mkNewBlock c10Info).baker = 0 ∧
      mkNewBlock c10Info = mkNewBlock { c10Info with block_baker := some 0 } ∧
      (BlockFetcher.do_block c10Client sqliteBlockRepository sqliteAccountRepository
          ":hash-300:" rewardScenarioStorage).2.blocks =
        rewardScenarioStorage.blocks ++
          [{ id := rewardScenarioStorage.next_block_id, height := c10Info.block_height,
             hash := c10Info.block_hash, slot_time_ms := c10Info.block_slot_time_ms,
             baker := 0 }]) :=
  ⟨by decide, by decide, by decide,
    missing_baker_stored_as_zero c10Client rewardScenarioStorage
      (BlockFetcher.do_block c10Client sqliteBlockRepository sqliteAccountRepository
        ":hash-300:" rewardScenarioStorage).2
      ":hash-300:" c10Info (by decide) (by decide) (by decide)⟩

end Bakerd
